import Mathlib

/-!
# Verification of the net-disk backend (src/backend/main.go)

A shallow embedding of the single-file Go backend: the SHA-256 content
hasher (`calculateHash`), the SQLite-backed file store (`fileExists`,
`addFile`, `getAllFiles` against the schema created by `initDB`), and the
two HTTP handlers (`upload` for POST /upload, `filesHandler` for
GET /files).

Bytes are `Nat` values below 256; machine 32-bit arithmetic is `Nat`
with explicit reduction modulo 2^32. External failure points (form
parsing, stream opening, stream reads, database queries, a concurrent
insert racing the existence check) are injected explicitly, so every
error path of the Go handlers is a reachable branch of the model.
-/

namespace NetDisk

/-! ## SHA-256 (the digest computed by crypto/sha256 in `calculateHash`) -/

/-- Reduce to a 32-bit word, as Go's uint32 arithmetic does. -/
def w32 (n : Nat) : Nat := n % 4294967296

/-- Rotate a 32-bit word right by `n` bits (0 < n < 32). -/
def rotr32 (x n : Nat) : Nat := x / 2 ^ n + x % 2 ^ n * 2 ^ (32 - n)

/-- Bitwise complement within 32 bits. -/
def not32 (x : Nat) : Nat := x ^^^ 4294967295

/-- SHA-256 Ch(x, y, z). -/
def ch (x y z : Nat) : Nat := (x &&& y) ^^^ (not32 x &&& z)

/-- SHA-256 Maj(x, y, z). -/
def maj (x y z : Nat) : Nat := (x &&& y) ^^^ (x &&& z) ^^^ (y &&& z)

/-- SHA-256 Σ0. -/
def bsig0 (x : Nat) : Nat := rotr32 x 2 ^^^ rotr32 x 13 ^^^ rotr32 x 22

/-- SHA-256 Σ1. -/
def bsig1 (x : Nat) : Nat := rotr32 x 6 ^^^ rotr32 x 11 ^^^ rotr32 x 25

/-- SHA-256 σ0. -/
def ssig0 (x : Nat) : Nat := rotr32 x 7 ^^^ rotr32 x 18 ^^^ x / 2 ^ 3

/-- SHA-256 σ1. -/
def ssig1 (x : Nat) : Nat := rotr32 x 17 ^^^ rotr32 x 19 ^^^ x / 2 ^ 10

/-- The 64 SHA-256 round constants (FIPS 180-4, written in decimal). -/
def K : List Nat :=
  [1116352408, 1899447441, 3049323471, 3921009573, 961987163, 1508970993,
   2453635748, 2870763221, 3624381080, 310598401, 607225278, 1426881987,
   1925078388, 2162078206, 2614888103, 3248222580, 3835390401, 4022224774,
   264347078, 604807628, 770255983, 1249150122, 1555081692, 1996064986,
   2554220882, 2821834349, 2952996808, 3210313671, 3336571891, 3584528711,
   113926993, 338241895, 666307205, 773529912, 1294757372, 1396182291,
   1695183700, 1986661051, 2177026350, 2456956037, 2730485921, 2820302411,
   3259730800, 3345764771, 3516065817, 3600352804, 4094571909, 275423344,
   430227734, 506948616, 659060556, 883997877, 958139571, 1322822218,
   1537002063, 1747873779, 1955562222, 2024104815, 2227730452, 2361852424,
   2428436474, 2756734187, 3204031479, 3329325298]

/-- The eight 32-bit hash registers. -/
structure Regs where
  a : Nat
  b : Nat
  c : Nat
  d : Nat
  e : Nat
  f : Nat
  g : Nat
  h : Nat

/-- Initial SHA-256 register values (FIPS 180-4, written in decimal). -/
def initH : Regs :=
  ⟨1779033703, 3144134277, 1013904242, 2773480762,
   1359893119, 2600822924, 528734635, 1541459225⟩

/-- The 64-bit big-endian byte encoding of the message bit length. -/
def beBytes8 (n : Nat) : List Nat :=
  [n / 2 ^ 56 % 256, n / 2 ^ 48 % 256, n / 2 ^ 40 % 256, n / 2 ^ 32 % 256,
   n / 2 ^ 24 % 256, n / 2 ^ 16 % 256, n / 2 ^ 8 % 256, n % 256]

/-- SHA-256 padding: append 0x80, zeros to 56 mod 64, then the bit length. -/
def padMessage (msg : List Nat) : List Nat :=
  msg ++ [128] ++ List.replicate ((64 - (msg.length + 9) % 64) % 64) 0 ++ beBytes8 (8 * msg.length)

/-- Assemble big-endian 32-bit words from bytes. -/
def toWords : List Nat → List Nat
  | b0 :: b1 :: b2 :: b3 :: rest => (b0 * 16777216 + b1 * 65536 + b2 * 256 + b3) :: toWords rest
  | _ => []

/-- Append the next word of the message schedule. -/
def scheduleStep (ws : List Nat) : List Nat :=
  ws ++ [w32 (ssig1 (ws.getD (ws.length - 2) 0) + ws.getD (ws.length - 7) 0 +
              ssig0 (ws.getD (ws.length - 15) 0) + ws.getD (ws.length - 16) 0)]

/-- Extend the 16 chunk words to the 64-word message schedule. -/
def schedule (ws : List Nat) : List Nat :=
  (List.range 48).foldl (fun acc _ => scheduleStep acc) ws

/-- One SHA-256 compression round; `kw` pairs the round constant with the
scheduled word. -/
def round (r : Regs) (kw : Nat × Nat) : Regs :=
  let t1 := w32 (r.h + bsig1 r.e + ch r.e r.f r.g + kw.1 + kw.2)
  let t2 := w32 (bsig0 r.a + maj r.a r.b r.c)
  ⟨w32 (t1 + t2), r.a, r.b, r.c, w32 (r.d + t1), r.e, r.f, r.g⟩

/-- Compress one 64-byte chunk into the running registers. -/
def compress (H : Regs) (chunk : List Nat) : Regs :=
  let r := (K.zip (schedule (toWords chunk))).foldl round H
  ⟨w32 (H.a + r.a), w32 (H.b + r.b), w32 (H.c + r.c), w32 (H.d + r.d),
   w32 (H.e + r.e), w32 (H.f + r.f), w32 (H.g + r.g), w32 (H.h + r.h)⟩

/-- Split into `n` chunks of 64 bytes. -/
def chunksGo : Nat → List Nat → List (List Nat)
  | 0, _ => []
  | n + 1, l => l.take 64 :: chunksGo n (l.drop 64)

/-- Split a padded message (length a multiple of 64) into 64-byte chunks. -/
def chunks64 (l : List Nat) : List (List Nat) := chunksGo (l.length / 64) l

/-- The four big-endian bytes of a 32-bit word. -/
def wordBytes (w : Nat) : List Nat :=
  [w / 16777216 % 256, w / 65536 % 256, w / 256 % 256, w % 256]

/-- The 32-byte SHA-256 digest of a byte sequence. -/
def sha256 (msg : List Nat) : List Nat :=
  let H := (chunks64 (padMessage msg)).foldl compress initH
  wordBytes H.a ++ wordBytes H.b ++ wordBytes H.c ++ wordBytes H.d ++
  wordBytes H.e ++ wordBytes H.f ++ wordBytes H.g ++ wordBytes H.h

/-- The lowercase hex alphabet used by encoding/hex (its `hextable`). -/
def hexDigits : List Char := "0123456789abcdef".toList

/-- The lowercase hex digit of a value; callers pass values below 16
(the reduction mod 16 only makes the lookup total). -/
def hexChar (n : Nat) : Char := hexDigits.getD (n % 16) '0'

/-- hex.EncodeToString: two lowercase hex digits per byte, high nibble first. -/
def hexEncode : List Nat → List Char
  | [] => []
  | b :: bs => hexChar (b / 16) :: hexChar b :: hexEncode bs

/-- `calculateHash`: the lowercase hex encoding of the SHA-256 digest of the
stream's bytes, as computed by the Go helper. -/
def calculateHash (content : List Nat) : String := String.mk (hexEncode (sha256 content))

/-- The bytes of the string "hello". -/
def helloBytes : List Nat := [104, 101, 108, 108, 111]

/-- Sanity vector from the spec: sha256("hello"). -/
theorem calculateHash_hello :
    calculateHash helloBytes =
      "2cf24dba5fb0a30e26e83b2ac5b9e29e1b161e5c1fa7425e73043362938b9824" := by
  rfl

/-- Sanity vector from the spec: sha256 of the empty byte sequence. -/
theorem calculateHash_empty :
    calculateHash [] =
      "e3b0c44298fc1c149afbf4c8996fb92427ae41e4649b934ca495991b7852b855" := by
  rfl

/-! ## Data model and file store

The `files` table created by `initDB`:
`id INTEGER PRIMARY KEY AUTOINCREMENT, hash TEXT NOT NULL UNIQUE,
name TEXT NOT NULL, file BLOB NOT NULL`. -/

/-- The `File` struct: id, hash, name, and the raw content bytes
(the `file` column; JSON tag "-"). -/
structure File where
  id : Nat
  hash : String
  name : String
  file : List Nat
deriving DecidableEq, Repr

/-- The database state: committed rows plus the AUTOINCREMENT counter. -/
structure DB where
  files : List File
  nextId : Nat
deriving DecidableEq, Repr

/-- `initDB`: the freshly created empty `files` table. -/
def initDB : DB := ⟨[], 1⟩

/-- Storage-level failure, as surfaced by database/sql: the UNIQUE
constraint violation on `hash` is a distinct condition from generic
I/O failure. -/
inductive DBErr where
  | uniqueViolation
  | ioError
deriving DecidableEq, Repr

/-- `fileExists`: `SELECT EXISTS(SELECT 1 FROM files WHERE hash = ?)`. -/
def fileExists (db : DB) (h : String) : Bool := db.files.any (fun f => f.hash == h)

/-- `addFile`: `INSERT INTO files (hash, name, file) VALUES (?, ?, ?)` against
the UNIQUE constraint on `hash`; the id is assigned by AUTOINCREMENT and the
insert is atomic — on a constraint violation the table is unchanged. -/
def addFile (db : DB) (f : File) : Except DBErr DB :=
  if fileExists db f.hash then .error .uniqueViolation
  else .ok ⟨db.files ++ [⟨db.nextId, f.hash, f.name, f.file⟩], db.nextId + 1⟩

/-- A row as `SELECT id, hash, name` scans it: the `file` field is left at its
zero value (no bytes). -/
def metaOnly (f : File) : File := ⟨f.id, f.hash, f.name, []⟩

/-- External failure points of one GET /files request. `scanErrAt n` makes
`rows.Scan` fail on row `n`; `nextStopAt n` makes `rows.Next` return false
after `n` rows because of a cursor error (which `getAllFiles` never checks
via `rows.Err`). -/
inductive ListFault where
  | clean
  | queryErr
  | scanErrAt (n : Nat)
  | nextStopAt (n : Nat)
deriving DecidableEq, Repr

/-- `getAllFiles`: `SELECT id, hash, name FROM files`, scanning rows into a
slice. A query error or a scan error returns nil and the error; a cursor
error silently ends the loop, returning the rows scanned so far with no
error. -/
def getAllFiles (db : DB) (flt : ListFault) : Except DBErr (List File) :=
  match flt with
  | .clean => .ok (db.files.map metaOnly)
  | .queryErr => .error .ioError
  | .scanErrAt n =>
      if n < db.files.length then .error .ioError else .ok (db.files.map metaOnly)
  | .nextStopAt n => .ok ((db.files.take n).map metaOnly)

/-! ## HTTP handlers -/

/-- The upload handler's response: the four `c.JSON` outcomes, plus
`fatalExit` for `log.Fatal` inside `calculateHash`, which terminates the
process without sending any response. -/
inductive Resp where
  | badRequest (msg : String)
  | internalError (msg : String)
  | conflict (msg : String)
  | ok (filename hash : String)
  | fatalExit
deriving DecidableEq, Repr

/-- External failure points of one POST /upload request. `seekErr` models a
failing `fileContent.Seek(0, io.SeekStart)` — the handler discards its error,
and the subsequent `io.ReadAll` then reads from the end of the already
consumed stream, yielding no bytes. `raceInsert` is a row committed by a
concurrent request between the existence check and the insert. -/
structure Faults where
  formFileErr : Bool
  openErr : Bool
  hashReadErr : Bool
  seekErr : Bool
  existsErr : Bool
  readErr : Bool
  insertErr : Bool
  raceInsert : Option File
deriving DecidableEq, Repr

/-- The fault-free request environment. -/
def noFaults : Faults := ⟨false, false, false, false, false, false, false, none⟩

/-- The POST /upload handler, step for step from the Go source: form field,
open, hash (a read failure there hits `log.Fatal`), seek (error ignored),
existence check, conflict, full read, insert (every insert error mapped to
the same InternalError), success. Returns the response together with the
database state after the request. -/
def upload (db : DB) (fs : Faults) (filename : String) (content : List Nat) :
    Resp × DB :=
  if fs.formFileErr then (.badRequest "No file is uploaded", db)
  else if fs.openErr then (.internalError "Failed to read file", db)
  else if fs.hashReadErr then (.fatalExit, db)
  else
    let hash := calculateHash content
    if fs.existsErr then (.internalError "Failed to check file existence", db)
    else if fileExists db hash then (.conflict "File already exists", db)
    else
      let db1 := match fs.raceInsert with
        | some g => match addFile db g with
          | .ok d => d
          | .error _ => db
        | none => db
      if fs.readErr then (.internalError "Failed to read file content", db1)
      else
        let data := if fs.seekErr then [] else content
        if fs.insertErr then (.internalError "Failed to save file to database", db1)
        else match addFile db1 ⟨0, hash, filename, data⟩ with
          | .ok db2 => (.ok filename hash, db2)
          | .error _ => (.internalError "Failed to save file to database", db1)

/-! ## JSON serialization of the listing (encoding/json via gin) -/

/-- The JSON values the listing response can take. -/
inductive Json where
  | null
  | str (s : String)
  | num (n : Nat)
  | arr (xs : List Json)
  | obj (fields : List (String × Json))

/-- Whether a JSON value is an array. -/
def Json.isArr : Json → Bool
  | .arr _ => true
  | _ => false

/-- The keys of a JSON object, in order. -/
def Json.keys : Json → List String
  | .obj fs => fs.map Prod.fst
  | _ => []

/-- One `File` as encoding/json marshals it: the struct tags name the keys
`id`, `hash`, `name`, and the tag "-" omits the content field entirely. -/
def fileToJson (f : File) : Json :=
  .obj [("id", .num f.id), ("hash", .str f.hash), ("name", .str f.name)]

/-- The Go slice built by `getAllFiles` starts as `var files []File` and is
only ever appended to, so it is nil exactly when no rows were scanned;
encoding/json marshals a nil slice as `null` and a non-empty one as an
array. -/
def marshalFiles (l : List File) : Json :=
  if l.isEmpty then .null else .arr (l.map fileToJson)

/-- The GET /files response: 200 with a JSON body, or 500. -/
inductive HttpResp where
  | ok (body : Json)
  | err500 (msg : String)

/-- The GET /files handler: list, convert an error to 500, otherwise 200
with the marshalled slice. -/
def filesHandler (db : DB) (flt : ListFault) : HttpResp :=
  match getAllFiles db flt with
  | .error _ => .err500 "Failed to get files"
  | .ok files => .ok (marshalFiles files)

/-! ## Helper lemmas about the hasher -/

/-- The digest is always 32 bytes (256 bits), whatever the registers hold. -/
theorem sha256_length (msg : List Nat) : (sha256 msg).length = 32 := by
  simp [sha256, wordBytes]

/-- Hex encoding yields two characters per byte. -/
theorem hexEncode_length (bs : List Nat) : (hexEncode bs).length = 2 * bs.length := by
  induction bs with
  | nil => simp [hexEncode]
  | cons b bs ih => simp [hexEncode, ih]; omega

/-- Every emitted hex digit comes from the lowercase alphabet. -/
theorem hexChar_mem (n : Nat) : hexChar n ∈ hexDigits := by
  have h : n % 16 < 16 := Nat.mod_lt _ (by omega)
  unfold hexChar
  generalize hk : n % 16 = k at h
  interval_cases k <;> decide

/-- Every character of a hex encoding is a lowercase hex digit. -/
theorem hexEncode_all_hex (bs : List Nat) :
    (hexEncode bs).all (fun ch => hexDigits.contains ch) = true := by
  induction bs with
  | nil => rfl
  | cons b bs ih =>
      simp only [hexEncode, List.all_cons, ih, Bool.and_true]
      simp [hexChar_mem]

/-! ## Claim theorems -/

/-- C8: the content hasher is deterministic — hashing the same bytes twice
yields the same digest — and its output is the lowercase hexadecimal
encoding of a 256-bit digest: a 64-character string all of whose characters
are lowercase hex digits. -/
theorem calculateHash_deterministic_hex (B : List Nat) :
    calculateHash B = calculateHash B ∧ (calculateHash B).length = 64 ∧
    (calculateHash B).data.all (fun ch => hexDigits.contains ch) = true := by
  refine ⟨rfl, ?_, ?_⟩
  · show (hexEncode (sha256 B)).length = 64
    rw [hexEncode_length, sha256_length]
  · exact hexEncode_all_hex (sha256 B)

/-- C1: uploading bytes B into the empty store succeeds with hash
H = calculateHash B; a second upload of identical bytes under any filename
returns Conflict, and the store then contains exactly one record whose
hash is H. -/
theorem upload_dedup_twice (content : List Nat) (n1 n2 : String) :
    (upload initDB noFaults n1 content).1 = .ok n1 (calculateHash content) ∧
    (upload (upload initDB noFaults n1 content).2 noFaults n2 content).1 =
      .conflict "File already exists" ∧
    (upload (upload initDB noFaults n1 content).2 noFaults n2 content).2.files.countP
      (fun f => f.hash == calculateHash content) = 1 := by
  have h1 : upload initDB noFaults n1 content =
      (.ok n1 (calculateHash content),
       ⟨[⟨1, calculateHash content, n1, content⟩], 2⟩) := rfl
  rw [h1]
  refine ⟨rfl, ?_, ?_⟩ <;>
    simp [upload, noFaults, fileExists, addFile, List.countP_cons]

/-- C3 (divergence witness): when the stream read inside `calculateHash`
fails, the handler does not answer InternalError — `log.Fatal` terminates
the whole process with no HTTP response — though no store mutation has
happened. -/
theorem upload_hashfail_fatal (db : DB) (fs : Faults) (fn : String) (c : List Nat)
    (h1 : fs.formFileErr = false) (h2 : fs.openErr = false)
    (h3 : fs.hashReadErr = true) :
    upload db fs fn c = (.fatalExit, db) := by
  simp [upload, h1, h2, h3]

/-- C3 witness: the fatal exit at a concrete input. -/
theorem upload_hashfail_fatal_witness :
    upload initDB ⟨false, false, true, false, false, false, false, none⟩ "a.txt" helloBytes =
      (.fatalExit, initDB) :=
  upload_hashfail_fatal initDB ⟨false, false, true, false, false, false, false, none⟩
    "a.txt" helloBytes rfl rfl rfl

/-- The fault environment where only the ignored `Seek` fails. -/
def seekFaults : Faults := ⟨false, false, false, true, false, false, false, none⟩

/-- C4 (divergence witness): when the seek back to the start of the stream
fails — its error is discarded — uploading "hello" still reports success
with the hash of "hello", but the stored record's content is empty, so the
record's hash is not the digest of its content. -/
theorem upload_seekfail_breaks_hash_invariant :
    upload initDB seekFaults "a.txt" helloBytes =
      (.ok "a.txt" (calculateHash helloBytes),
       ⟨[⟨1, calculateHash helloBytes, "a.txt", []⟩], 2⟩) ∧
    calculateHash helloBytes ≠ calculateHash [] := by
  refine ⟨rfl, ?_⟩
  rw [calculateHash_hello, calculateHash_empty]
  decide

/-- The fault environment where a concurrent request commits the same
content between the existence check and the insert. -/
def raceFaults : Faults :=
  ⟨false, false, false, false, false, false, false, some ⟨0, calculateHash [], "a.txt", []⟩⟩

/-- C2 counterexample: when the insert hits a hash committed by a racing
request after the existence check, the handler answers InternalError, not
Conflict — the duplicate-key failure is not distinguished from generic
storage failure. -/
theorem upload_race_not_conflict :
    (upload initDB raceFaults "b.txt" []).1 =
      .internalError "Failed to save file to database" ∧
    (upload initDB raceFaults "b.txt" []).1 ≠ .conflict "File already exists" := by
  have h : (upload initDB raceFaults "b.txt" []).1 =
      .internalError "Failed to save file to database" := by
    simp [upload, raceFaults, addFile, fileExists, initDB]
  exact ⟨h, by rw [h]; simp⟩

/-- A record just appended to the table is found by the existence check. -/
theorem fileExists_append (l : List File) (n i : Nat) (h fn2 : String) (data : List Nat) :
    fileExists ⟨l ++ [⟨i, h, fn2, data⟩], n⟩ h = true := by
  simp [fileExists]

/-- C2 amended: every failure of the insert step gets the same
InternalError response — a generic storage failure and a duplicate-key
violation raced in after the existence check are not distinguished. -/
theorem upload_insert_failure_always_internal (db : DB) (fn : String) (c : List Nat)
    (hex : fileExists db (calculateHash c) = false) :
    (upload db ⟨false, false, false, false, false, false, true, none⟩ fn c).1 =
      .internalError "Failed to save file to database" ∧
    (upload db ⟨false, false, false, false, false, false, false,
        some ⟨0, calculateHash c, fn, c⟩⟩ fn c).1 =
      .internalError "Failed to save file to database" := by
  constructor
  · simp [upload, hex]
  · simp [upload, addFile, hex, fileExists_append]

/-- C2 witness: the amended behaviour at a concrete input. -/
theorem upload_insert_failure_always_internal_witness :
    (upload initDB ⟨false, false, false, false, false, false, true, none⟩ "a.txt" []).1 =
      .internalError "Failed to save file to database" ∧
    (upload initDB ⟨false, false, false, false, false, false, false,
        some ⟨0, calculateHash [], "a.txt", []⟩⟩ "a.txt" []).1 =
      .internalError "Failed to save file to database" :=
  upload_insert_failure_always_internal initDB "a.txt" [] rfl

/-- The store states reachable from the fresh table by committed inserts. -/
inductive Reachable : DB → Prop where
  | init : Reachable initDB
  | step {db db' : DB} {f : File} : Reachable db → addFile db f = .ok db' → Reachable db'

/-- C5: in every reachable store state the hashes are pairwise distinct, so
a hash identifies at most one record; and inserting a record whose hash is
already present fails with the uniqueness violation, producing no new
state. -/
theorem store_hash_unique (db : DB) (hdb : Reachable db) :
    (db.files.map File.hash).Nodup ∧
    ∀ f : File, fileExists db f.hash = true → addFile db f = .error .uniqueViolation := by
  refine ⟨?_, fun f hex => by simp [addFile, hex]⟩
  induction hdb with
  | init => simp [initDB]
  | step hr hadd ih =>
      rename_i db₀ db₁ f
      by_cases h : fileExists db₀ f.hash
      · simp [addFile, h] at hadd
      · simp only [addFile, h, if_neg, Bool.false_eq_true, ite_false] at hadd
        cases hadd
        simp only [List.map_append, List.map_cons, List.map_nil]
        rw [List.nodup_append]
        refine ⟨ih, List.nodup_singleton _, ?_⟩
        intro a ha hb
        simp only [List.mem_singleton] at hb
        subst hb
        simp only [fileExists, List.any_eq_true, beq_iff_eq] at h
        obtain ⟨g, hg, hgh⟩ := List.mem_map.mp ha
        exact h ⟨g, hg, hgh⟩

/-- A store state holding one committed record. -/
def dbOne : DB := ⟨[⟨1, "h1", "a.txt", [1]⟩], 2⟩

/-- C5 witness: the invariant at a concrete reachable state. -/
theorem store_hash_unique_witness :
    (dbOne.files.map File.hash).Nodup ∧
    ∀ f : File, fileExists dbOne f.hash = true →
      addFile dbOne f = .error .uniqueViolation :=
  store_hash_unique dbOne
    (@Reachable.step initDB dbOne ⟨0, "h1", "a.txt", [1]⟩ Reachable.init rfl)

/-- C6: with no racing writer, an upload either succeeds and appends exactly
one record to the store, or fails (any failure path: missing form field,
open failure, fatal hash failure, existence-check failure, duplicate, read
failure, insert failure) and leaves the store state exactly as it was. -/
theorem upload_atomic (db : DB) (fs : Faults) (fn : String) (c : List Nat)
    (hrace : fs.raceInsert = none) :
    ((upload db fs fn c).1 = .ok fn (calculateHash c) ∧
      ∃ rec : File, (upload db fs fn c).2.files = db.files ++ [rec]) ∨
    ((∀ g h : String, (upload db fs fn c).1 ≠ .ok g h) ∧ (upload db fs fn c).2 = db) := by
  rcases fs with ⟨ff, fo, fh, fsk, fe, fr, fi, race⟩
  simp only at hrace
  subst hrace
  by_cases hex : fileExists db (calculateHash c)
  all_goals cases ff <;> cases fo <;> cases fh <;> cases fe <;> cases fr <;> cases fi <;>
    simp [upload, addFile, hex]

/-- C6 witness: a fault-free upload into the empty store appends one
record. -/
theorem upload_atomic_witness :
    ((upload initDB noFaults "a.txt" helloBytes).1 =
        .ok "a.txt" (calculateHash helloBytes) ∧
      ∃ rec : File,
        (upload initDB noFaults "a.txt" helloBytes).2.files = initDB.files ++ [rec]) ∨
    ((∀ g h : String, (upload initDB noFaults "a.txt" helloBytes).1 ≠ .ok g h) ∧
      (upload initDB noFaults "a.txt" helloBytes).2 = initDB) :=
  upload_atomic initDB noFaults "a.txt" helloBytes rfl

/-- C7: whatever the store holds and however the query run goes, every row
the listing returns carries no content bytes — only the id, hash and name
of a stored record. -/
theorem getAllFiles_metadata_only (db : DB) (flt : ListFault) (l : List File)
    (h : getAllFiles db flt = .ok l) :
    ∀ f ∈ l, f.file = [] ∧
      ∃ g ∈ db.files, f.id = g.id ∧ f.hash = g.hash ∧ f.name = g.name := by
  intro f hf
  have hsub : ∃ g ∈ db.files, f = metaOnly g := by
    cases flt with
    | clean =>
        simp only [getAllFiles, Except.ok.injEq] at h
        subst h
        obtain ⟨g, hg, rfl⟩ := List.mem_map.mp hf
        exact ⟨g, hg, rfl⟩
    | queryErr => simp [getAllFiles] at h
    | scanErrAt n =>
        simp only [getAllFiles] at h
        split at h
        · cases h
        · simp only [Except.ok.injEq] at h
          subst h
          obtain ⟨g, hg, rfl⟩ := List.mem_map.mp hf
          exact ⟨g, hg, rfl⟩
    | nextStopAt n =>
        simp only [getAllFiles, Except.ok.injEq] at h
        subst h
        obtain ⟨g, hg, rfl⟩ := List.mem_map.mp hf
        exact ⟨g, List.take_subset _ _ hg, rfl⟩
  obtain ⟨g, hg, rfl⟩ := hsub
  exact ⟨rfl, g, hg, rfl, rfl, rfl⟩

/-- C7 witness: the row listed from a store holding one record with
content carries no bytes and matches that record's metadata. -/
theorem getAllFiles_metadata_only_witness :
    (⟨1, "h1", "a.txt", []⟩ : File).file = [] ∧
      ∃ g ∈ dbOne.files, (⟨1, "h1", "a.txt", []⟩ : File).id = g.id ∧
        (⟨1, "h1", "a.txt", []⟩ : File).hash = g.hash ∧
        (⟨1, "h1", "a.txt", []⟩ : File).name = g.name :=
  getAllFiles_metadata_only dbOne .clean [⟨1, "h1", "a.txt", []⟩] rfl
    ⟨1, "h1", "a.txt", []⟩ (by decide)

/-- C9 counterexample: on the empty store GET /files does answer 200, but
its body is JSON null — the nil slice marshals to null — not an array. -/
theorem filesHandler_empty_store_not_array :
    filesHandler initDB .clean = .ok Json.null ∧ Json.isArr Json.null = false :=
  ⟨rfl, rfl⟩

/-- C9 amended: on every nonempty store a fault-free GET /files answers 200
with a JSON array whose elements each carry exactly the keys id, hash,
name; on the empty store the 200 body is JSON null instead of an array. -/
theorem filesHandler_nonempty_array (db : DB) (hne : db.files ≠ []) :
    filesHandler db .clean = .ok (.arr ((db.files.map metaOnly).map fileToJson)) ∧
    ((db.files.map metaOnly).map fileToJson).all
      (fun j => j.keys == ["id", "hash", "name"]) = true := by
  constructor
  · have hmap : (db.files.map metaOnly).isEmpty = false := by
      cases hdb : db.files with
      | nil => exact absurd hdb hne
      | cons a l => rfl
    simp [filesHandler, getAllFiles, marshalFiles, hmap]
  · simp only [List.all_eq_true]
    intro j hj
    obtain ⟨g, _, rfl⟩ := List.mem_map.mp hj
    simp [Json.keys, fileToJson]

/-- C9 witness: the amended behaviour on a one-record store. -/
theorem filesHandler_nonempty_array_witness :
    filesHandler dbOne .clean =
      .ok (.arr ((dbOne.files.map metaOnly).map fileToJson)) ∧
    ((dbOne.files.map metaOnly).map fileToJson).all
      (fun j => j.keys == ["id", "hash", "name"]) = true :=
  filesHandler_nonempty_array dbOne (by simp [dbOne])

/-- A store state holding two committed records. -/
def dbTwo : DB := ⟨[⟨1, "h1", "a.txt", [1]⟩, ⟨2, "h2", "b.txt", [2]⟩], 3⟩

/-- C10 counterexample: a cursor failure after the first of two rows makes
`getAllFiles` return a one-row list with no error — a truncated listing
delivered as success, because `rows.Err` is never checked. -/
theorem getAllFiles_truncated_success :
    getAllFiles dbTwo (.nextStopAt 1) = .ok [⟨1, "h1", "a.txt", []⟩] ∧
    dbTwo.files.map metaOnly =
      [⟨1, "h1", "a.txt", []⟩, ⟨2, "h2", "b.txt", []⟩] ∧
    ([⟨1, "h1", "a.txt", []⟩] : List File) ≠
      [⟨1, "h1", "a.txt", []⟩, ⟨2, "h2", "b.txt", []⟩] := by
  refine ⟨rfl, rfl, ?_⟩
  decide

/-- C10 amended: a successful `getAllFiles` returns a prefix of the
records' metadata; it is the complete listing for every failure mode the
function checks (query and scan errors yield errors instead), but an
unchecked cursor failure can deliver a shorter prefix with no error. -/
theorem getAllFiles_all_or_truncated (db : DB) (flt : ListFault) (l : List File)
    (h : getAllFiles db flt = .ok l) :
    (∃ n, l = (db.files.map metaOnly).take n) ∧
    ((∀ n, flt ≠ .nextStopAt n) → l = db.files.map metaOnly) := by
  cases flt with
  | clean =>
      simp only [getAllFiles, Except.ok.injEq] at h
      subst h
      exact ⟨⟨(db.files.map metaOnly).length, (List.take_length _).symm⟩, fun _ => rfl⟩
  | queryErr => simp [getAllFiles] at h
  | scanErrAt n =>
      simp only [getAllFiles] at h
      split at h
      · cases h
      · simp only [Except.ok.injEq] at h
        subst h
        exact ⟨⟨(db.files.map metaOnly).length, (List.take_length _).symm⟩, fun _ => rfl⟩
  | nextStopAt n =>
      simp only [getAllFiles, Except.ok.injEq] at h
      subst h
      refine ⟨⟨n, ?_⟩, fun hn => absurd rfl (hn n)⟩
      simp [List.map_take]

/-- C10 witness: the fault-free listing of a two-record store is the
complete metadata. -/
theorem getAllFiles_all_or_truncated_witness :
    (∃ n, ([⟨1, "h1", "a.txt", []⟩, ⟨2, "h2", "b.txt", []⟩] : List File) =
      (dbTwo.files.map metaOnly).take n) ∧
    ((∀ n, ListFault.clean ≠ ListFault.nextStopAt n) →
      ([⟨1, "h1", "a.txt", []⟩, ⟨2, "h2", "b.txt", []⟩] : List File) =
        dbTwo.files.map metaOnly) :=
  getAllFiles_all_or_truncated dbTwo .clean
    [⟨1, "h1", "a.txt", []⟩, ⟨2, "h2", "b.txt", []⟩] rfl

end NetDisk
